import Mathlib

/-!
Verification of the cross-thread IndexedDB permission rendezvous
(`IDBFactoryBackendProxy` together with `AllowIndexedDBMainThreadBridge`).

The development shallowly embeds the C++ source:

* `Bridge` models the mutable state of `AllowIndexedDBMainThreadBridge`
  (`m_result` and the nullable back-reference `m_webWorkerBase`, the latter
  modelled by its presence as a `Bool`); the methods `cancel`, `result`,
  `signalCompleted` and `didComplete` are translated one-for-one.
* `Sys` together with the labelled step relation `Step` is an interleaving
  semantics of one `allowIDBFromWorkerThread` call: the main-thread task
  `allowIndexedDBTask` (split into its evaluation and its lock-protected
  `signalCompleted` call), the worker-side `didComplete` task, external
  teardown of the worker run loop, and the coordinator observing either a
  normal or a terminated `runInMode` return.  Lock-protected method bodies
  are single atomic steps; everything in between may interleave freely.
* `FieldAccess` lists record, per method and straight from the source text,
  which bridge field each method body touches and whether the access happens
  while `m_mutex` is held.
* `modeString`, `numberString` and `WorkerRunLoop.createUniqueId` model the
  wait-channel id construction of `allowIDBFromWorkerThread`.
* `openFromFrame`, `deleteDatabase`, `getDatabaseNames` and `openFromWorker`
  model the branching of the proxy entry points on the permission outcome.
-/

/-- Outcome computed by `allowIndexedDBTask` on the main thread: `false` when
the `WebCommonWorkerClient` capability is absent, otherwise the value of the
client's `allowIndexedDB(name)` predicate. -/
def clientEval (client : Option (String → Bool)) (name : String) : Bool :=
  match client with
  | none => false
  | some f => f name

/-- Mutable state of `AllowIndexedDBMainThreadBridge`: the result slot
`m_result` and the presence of the back-reference pointer `m_webWorkerBase`
(`true` iff the pointer is non-null). -/
structure Bridge where
  m_result : Bool
  m_webWorkerBase : Bool
deriving DecidableEq, Repr

/-- `cancel()`: under `m_mutex`, clear the back-reference (`m_webWorkerBase = 0`). -/
def Bridge.cancel (b : Bridge) : Bridge :=
  { b with m_webWorkerBase := false }

/-- `result()`: read `m_result` (no lock taken in the source). -/
def Bridge.result (b : Bridge) : Bool :=
  b.m_result

/-- `signalCompleted(result, mode)`: under `m_mutex`, if the back-reference is
still present, post the `didComplete` task (second component carries the task's
payload) toward the worker context; otherwise post nothing. -/
def Bridge.signalCompleted (b : Bridge) (result : Bool) : Bridge × Option Bool :=
  if b.m_webWorkerBase then (b, some result) else (b, none)

/-- `didComplete(context, bridge, result)`: store the outcome into `m_result`.
The source takes no lock and performs no back-reference check here. -/
def Bridge.didComplete (b : Bridge) (result : Bool) : Bridge :=
  { b with m_result := result }

/-- The two mutable bridge fields guarded (per the design) by `m_mutex`. -/
inductive BridgeField where
  | resultSlot
  | backref
deriving DecidableEq, Repr

/-- One access to a mutable bridge field, as read off a method body in the
source: which field, whether it is a write, and whether a `MutexLocker` on
`m_mutex` is in scope at the access. -/
structure FieldAccess where
  field : BridgeField
  isWrite : Bool
  underLock : Bool
deriving DecidableEq, Repr

/-- Accesses in `cancel()`: writes `m_webWorkerBase` with `MutexLocker` held. -/
def cancelAccesses : List FieldAccess :=
  [⟨BridgeField.backref, true, true⟩]

/-- Accesses in `result()`: reads `m_result` with no lock. -/
def resultAccesses : List FieldAccess :=
  [⟨BridgeField.resultSlot, false, false⟩]

/-- Accesses in `signalCompleted()`: reads `m_webWorkerBase` with `MutexLocker` held. -/
def signalCompletedAccesses : List FieldAccess :=
  [⟨BridgeField.backref, false, true⟩]

/-- Accesses in `didComplete()`: writes `m_result` with no lock. -/
def didCompleteAccesses : List FieldAccess :=
  [⟨BridgeField.resultSlot, true, false⟩]

/-- All mutable-field accesses performed by bridge methods after construction. -/
def allBridgeAccesses : List FieldAccess :=
  cancelAccesses ++ resultAccesses ++ signalCompletedAccesses ++ didCompleteAccesses

/-- Where the coordinator (`allowIDBFromWorkerThread`) stands: parked in
`runInMode`, woken by the tagged completion task, or returned (the flag records
whether the return came from the `MessageQueueTerminated` branch). -/
inductive Phase where
  | waiting
  | completed
  | returned (abnormal : Bool) (value : Bool)
deriving DecidableEq, Repr

/-- Global configuration of one `allowIDBFromWorkerThread` call.

* `bridge` — the shared `AllowIndexedDBMainThreadBridge` state;
* `mainDispatched` — how many tasks were dispatched to the main (authority)
  thread so far (ghost counter);
* `mainTaskPending` — the dispatched `allowIndexedDBTask` has not yet run;
* `outcome` — the task has evaluated the permission predicate but has not yet
  performed its `signalCompleted` call (carries the computed boolean);
* `workerTask` — a `didComplete` task posted via
  `postTaskForModeToWorkerContext`, not yet run (carries its payload);
* `loopTerminated` — the worker run loop's queue was torn down;
* `phase` — the coordinator's position;
* `resultWrites` — how many times `m_result` has been assigned (ghost counter). -/
structure Sys where
  bridge : Bridge
  mainDispatched : Nat
  mainTaskPending : Bool
  outcome : Option Bool
  workerTask : Option Bool
  loopTerminated : Bool
  phase : Phase
  resultWrites : Nat
deriving DecidableEq, Repr

/-- State right after `AllowIndexedDBMainThreadBridge::create` returns inside
`allowIDBFromWorkerThread`: `m_result` initialized to `false`, back-reference
set, and — unconditionally, whatever the client capability — one
`allowIndexedDBTask` dispatched to the main thread by the constructor. -/
def bridgeConstruct : Sys where
  bridge := ⟨false, true⟩
  mainDispatched := 1
  mainTaskPending := true
  outcome := none
  workerTask := none
  loopTerminated := false
  phase := Phase.waiting
  resultWrites := 0

/-- The coordinator's `MessageQueueTerminated` branch:
`bridge->cancel(); return false;`. -/
def onTerminated (s : Sys) : Sys :=
  { s with bridge := s.bridge.cancel, phase := Phase.returned true false }

/-- Effect of the task's `signalCompleted(result, mode)` call on the global
configuration: the bridge is updated (it is in fact unchanged) and the posted
`didComplete` task, if any, is enqueued toward the worker context. -/
def signalStep (s : Sys) (b : Bool) : Sys :=
  { s with outcome := none
         , bridge := (s.bridge.signalCompleted b).1
         , workerTask :=
             match (s.bridge.signalCompleted b).2 with
             | some t => some t
             | none => s.workerTask }

/-- Names of the atomic steps of one permission check. -/
inductive Label where
  | evalMain
  | signalMain
  | runDidComplete
  | coordReturn
  | teardown
  | observeTeardown
deriving DecidableEq, Repr

/-- Interleaving semantics of one `allowIDBFromWorkerThread` call, for a fixed
client capability and subject name.

* `evalMain` — `allowIndexedDBTask` runs on the main thread up to (but not
  including) its `signalCompleted` call; both of its branches compute
  `clientEval client name` (`false` when `commonClient` is null).
* `signalMain` — the task's `signalCompleted` call, atomic under `m_mutex`:
  posts `didComplete` toward the worker only if the back-reference is present.
* `runDidComplete` — the posted `didComplete` task runs inside the matching
  restricted-mode `runInMode` iteration, which requires the queue to be alive
  and the coordinator still parked; it assigns `m_result` and ends the wait.
* `coordReturn` — `runInMode` returned normally; the coordinator returns
  `bridge->result()`.
* `teardown` — the worker run loop's queue is torn down externally.
* `observeTeardown` — `runInMode` returns `MessageQueueTerminated`; the
  coordinator cancels the bridge and returns `false`. -/
inductive Step (client : Option (String → Bool)) (name : String) :
    Sys → Label → Sys → Prop where
  | evalMain (s : Sys) (h : s.mainTaskPending = true) :
      Step client name s Label.evalMain
        { s with mainTaskPending := false, outcome := some (clientEval client name) }
  | signalMain (s : Sys) (b : Bool) (h : s.outcome = some b) :
      Step client name s Label.signalMain (signalStep s b)
  | runDidComplete (s : Sys) (b : Bool) (hlive : s.loopTerminated = false)
      (h : s.workerTask = some b) (hph : s.phase = Phase.waiting) :
      Step client name s Label.runDidComplete
        { s with workerTask := none
               , bridge := s.bridge.didComplete b
               , resultWrites := s.resultWrites + 1
               , phase := Phase.completed }
  | coordReturn (s : Sys) (h : s.phase = Phase.completed) :
      Step client name s Label.coordReturn
        { s with phase := Phase.returned false s.bridge.result }
  | teardown (s : Sys) (h : s.loopTerminated = false) :
      Step client name s Label.teardown
        { s with loopTerminated := true }
  | observeTeardown (s : Sys) (hph : s.phase = Phase.waiting)
      (hterm : s.loopTerminated = true) :
      Step client name s Label.observeTeardown (onTerminated s)

/-- Configurations reachable from the post-construction state. -/
inductive Reachable (client : Option (String → Bool)) (name : String) : Sys → Prop where
  | init : Reachable client name bridgeConstruct
  | step {s l s'} : Reachable client name s → Step client name s l s' →
      Reachable client name s'

/-- Inductive invariant of the rendezvous. -/
def SysInv (client : Option (String → Bool)) (name : String) (s : Sys) : Prop :=
  s.mainDispatched = 1 ∧
  (∀ b, s.outcome = some b →
    b = clientEval client name ∧ s.mainTaskPending = false ∧
    s.workerTask = none ∧ s.resultWrites = 0) ∧
  (s.mainTaskPending = true →
    s.outcome = none ∧ s.workerTask = none ∧ s.resultWrites = 0) ∧
  (∀ b, s.workerTask = some b →
    b = clientEval client name ∧ s.mainTaskPending = false ∧
    s.outcome = none ∧ s.resultWrites = 0) ∧
  s.resultWrites ≤ 1 ∧
  (s.resultWrites = 0 → s.bridge.m_result = false) ∧
  (s.resultWrites = 1 →
    s.bridge.m_result = clientEval client name ∧ s.mainTaskPending = false ∧
    s.outcome = none ∧ s.workerTask = none) ∧
  (s.phase = Phase.completed → s.resultWrites = 1) ∧
  (∀ r, s.phase = Phase.returned false r →
    r = clientEval client name ∧ s.resultWrites = 1) ∧
  (∀ r, s.phase = Phase.returned true r → r = false) ∧
  (s.bridge.m_webWorkerBase = false → s.loopTerminated = true)

/-- Requester run-loop state relevant to wait-channel id generation: the
value of its unique-id counter. -/
structure WorkerRunLoop where
  uniqueId : Nat
deriving DecidableEq, Repr

/-- Modelled from the spec: `WorkerRunLoop::createUniqueId` is only called,
not defined, in this excerpt; per the spec the wait-channel counter is a
"monotonically increasing counter scoped to the requester's task loop".
Returns the fresh id together with the advanced loop state. -/
def WorkerRunLoop.createUniqueId (l : WorkerRunLoop) : Nat × WorkerRunLoop :=
  (l.uniqueId + 1, ⟨l.uniqueId + 1⟩)

/-- Identifier produced by the (k+1)-st `createUniqueId` call on loop `l`
(each `check` call performs exactly one such call). -/
def nthUniqueId (l : WorkerRunLoop) : Nat → Nat
  | 0 => l.createUniqueId.1
  | k + 1 => nthUniqueId l.createUniqueId.2 k

/-- The base tag: `static const char allowIndexedDBMode[]`. -/
def allowIndexedDBModeTag : String := "allowIndexedDBMode"

/-- Decimal digit characters of `n`, least significant first; the digit
production of `WTF::String::number` for an unsigned value. -/
def natDigitsRev (n : Nat) : List Char :=
  if h : n < 10 then [Nat.digitChar n]
  else Nat.digitChar (n % 10) :: natDigitsRev (n / 10)
termination_by n
decreasing_by exact Nat.div_lt_self (by omega) (by omega)

/-- `WTF::String::number(n)`: the decimal representation of `n`. -/
def numberString (n : Nat) : String :=
  List.asString (natDigitsRev n).reverse

/-- Wait-channel id built in `allowIDBFromWorkerThread`:
`String mode = allowIndexedDBMode; mode.append(String::number(id))`. -/
def modeString (id : Nat) : String :=
  allowIndexedDBModeTag ++ numberString id

/-- Numeric value of a decimal digit character. -/
def digitVal (c : Char) : Nat := c.toNat - 48

/-- Decode a little-endian decimal digit list. -/
def decValRev : List Char → Nat
  | [] => 0
  | c :: cs => digitVal c + 10 * decValRev cs

/-- Modelled from the spec: restricted-mode delivery of the dispatch
substrate (`WorkerRunLoop::runInMode` is only called in this excerpt): a task
posted for mode `taskMode` is deliverable inside a restricted-mode wait for
mode `waitMode` only when the two tags are equal. -/
def deliveredInMode (taskMode waitMode : String) : Bool :=
  taskMode == waitMode

/-- The denial message passed to `callbacks->onError` by every entry point. -/
def denialMessage : String :=
  "The user denied permission to access the database."

/-- Observable effect of a frame-based proxy entry point: either the error
callback fires or the corresponding `m_webIDBFactory` operation is invoked. -/
inductive FrameEffect where
  | error (message : String)
  | factoryGetDatabaseNames
  | factoryOpen (name : String)
  | factoryDeleteDatabase (name : String)
deriving DecidableEq, Repr

/-- The guard shared by the frame-based entry points:
`webView->permissionClient() && !webView->permissionClient()->allowIndexedDB(webFrame, name, origin)`
(the web frame and security origin, fixed for a given call, are elided from
the permission predicate). -/
def deniedByPermissionClient (permissionClient : Option (String → Bool))
    (name : String) : Bool :=
  match permissionClient with
  | some client => !(client name)
  | none => false

/-- `IDBFactoryBackendProxy::getDatabaseNames`: the name passed to the
permission client is the literal "Database Listing". -/
def getDatabaseNames (permissionClient : Option (String → Bool)) : FrameEffect :=
  if deniedByPermissionClient permissionClient "Database Listing"
  then FrameEffect.error denialMessage
  else FrameEffect.factoryGetDatabaseNames

/-- `IDBFactoryBackendProxy::open`, the frame-based entry point (named
`openFromFrame` here because `open` is a Lean keyword). -/
def openFromFrame (permissionClient : Option (String → Bool))
    (name : String) : FrameEffect :=
  if deniedByPermissionClient permissionClient name
  then FrameEffect.error denialMessage
  else FrameEffect.factoryOpen name

/-- `IDBFactoryBackendProxy::deleteDatabase`. -/
def deleteDatabase (permissionClient : Option (String → Bool))
    (name : String) : FrameEffect :=
  if deniedByPermissionClient permissionClient name
  then FrameEffect.error denialMessage
  else FrameEffect.factoryDeleteDatabase name

/-- Observable effect of `IDBFactoryBackendProxy::openFromWorker`. -/
inductive WorkerOpenEffect where
  | onError (message : String)
  | factoryOpen (name : String)
deriving DecidableEq, Repr

/-- `IDBFactoryBackendProxy::openFromWorker`, as a function of the boolean
returned by `allowIDBFromWorkerThread`. -/
def openFromWorker (allowed : Bool) (name : String) : WorkerOpenEffect :=
  if !allowed then WorkerOpenEffect.onError denialMessage
  else WorkerOpenEffect.factoryOpen name

/-- A client capability that grants every request; used in concrete runs. -/
def grantAll : Option (String → Bool) := some fun _ => true

/-- Final configuration of the run in which the authority granted "inbox". -/
def runAllowedFinal : Sys where
  bridge := ⟨true, true⟩
  mainDispatched := 1
  mainTaskPending := false
  outcome := none
  workerTask := none
  loopTerminated := false
  phase := Phase.returned false true
  resultWrites := 1

/-- Final configuration of the run with an absent client capability: the
denial still travelled through the main thread and back. -/
def runDeniedFinal : Sys where
  bridge := ⟨false, true⟩
  mainDispatched := 1
  mainTaskPending := false
  outcome := none
  workerTask := none
  loopTerminated := false
  phase := Phase.returned false false
  resultWrites := 1

/-- The initial configuration after an external queue teardown. -/
def terminatedWaiting : Sys :=
  { bridgeConstruct with loopTerminated := true }

/-- Configuration after the coordinator observed the teardown and cancelled. -/
def cancelledState : Sys :=
  onTerminated terminatedWaiting

/-- `cancelledState` after the (still pending) main-thread task evaluated. -/
def afterCancelEval : Sys :=
  { cancelledState with mainTaskPending := false, outcome := some true }

theorem Bridge.signalCompleted_fst (b : Bridge) (r : Bool) :
    (b.signalCompleted r).1 = b := by
  unfold Bridge.signalCompleted
  split <;> rfl

theorem signalStep_eq (s : Sys) (b : Bool) :
    signalStep s b =
      if s.bridge.m_webWorkerBase
      then { s with outcome := none, workerTask := some b }
      else { s with outcome := none } := by
  unfold signalStep Bridge.signalCompleted
  cases hbr : s.bridge.m_webWorkerBase <;> simp [hbr]

theorem inv_init (client : Option (String → Bool)) (name : String) :
    SysInv client name bridgeConstruct := by
  simp [SysInv, bridgeConstruct]

theorem inv_step {client : Option (String → Bool)} {name : String}
    {s : Sys} {l : Label} {s' : Sys}
    (hinv : SysInv client name s) (hstep : Step client name s l s') :
    SysInv client name s' := by
  obtain ⟨h1, h2, h3, h4, h5, h6, h7, h8, h9, h10, h11⟩ := hinv
  cases hstep with
  | evalMain h =>
      obtain ⟨ho, hw, hr⟩ := h3 h
      refine ⟨h1, ?_, ?_, ?_, h5, h6, ?_, h8, h9, h10, h11⟩
      · intro b hb
        have hb' : some (clientEval client name) = some b := hb
        obtain rfl : b = clientEval client name := (Option.some.inj hb').symm
        exact ⟨rfl, rfl, hw, hr⟩
      · intro hc
        exact Bool.noConfusion (show false = true from hc)
      · intro b hb
        have hb' : s.workerTask = some b := hb
        rw [hw] at hb'
        exact Option.noConfusion hb'
      · intro hx
        have hx' : s.resultWrites = 1 := hx
        omega
  | signalMain b h =>
      obtain ⟨hb, hm, hw, hr⟩ := h2 b h
      subst hb
      rw [signalStep_eq]
      cases hbr : s.bridge.m_webWorkerBase with
      | true =>
          rw [if_pos rfl]
          refine ⟨h1, ?_, ?_, ?_, h5, h6, ?_, h8, h9, h10, h11⟩
          · intro t ht
            exact Option.noConfusion (show (none : Option Bool) = some t from ht)
          · intro hc
            have hc' : s.mainTaskPending = true := hc
            rw [hm] at hc'
            exact Bool.noConfusion hc'
          · intro t ht
            have ht' : some (clientEval client name) = some t := ht
            obtain rfl : t = clientEval client name := (Option.some.inj ht').symm
            exact ⟨rfl, hm, rfl, hr⟩
          · intro hx
            have hx' : s.resultWrites = 1 := hx
            omega
      | false =>
          rw [if_neg Bool.false_ne_true]
          refine ⟨h1, ?_, ?_, ?_, h5, h6, ?_, h8, h9, h10, h11⟩
          · intro t ht
            exact Option.noConfusion (show (none : Option Bool) = some t from ht)
          · intro hc
            have hc' : s.mainTaskPending = true := hc
            rw [hm] at hc'
            exact Bool.noConfusion hc'
          · intro t ht
            have ht' : s.workerTask = some t := ht
            rw [hw] at ht'
            exact Option.noConfusion ht'
          · intro hx
            have hx' : s.resultWrites = 1 := hx
            omega
  | runDidComplete b hlive h hph =>
      obtain ⟨hb, hm, ho, hr⟩ := h4 b h
      subst hb
      refine ⟨h1, ?_, ?_, ?_, ?_, ?_, ?_, ?_, ?_, ?_, h11⟩
      · intro t ht
        have ht' : s.outcome = some t := ht
        rw [ho] at ht'
        exact Option.noConfusion ht'
      · intro hc
        have hc' : s.mainTaskPending = true := hc
        rw [hm] at hc'
        exact Bool.noConfusion hc'
      · intro t ht
        exact Option.noConfusion (show (none : Option Bool) = some t from ht)
      · show s.resultWrites + 1 ≤ 1
        omega
      · intro hx
        have hx' : s.resultWrites + 1 = 0 := hx
        exact absurd hx' (by omega)
      · intro _
        exact ⟨rfl, hm, ho, rfl⟩
      · intro _
        show s.resultWrites + 1 = 1
        omega
      · intro r hph'
        exact Phase.noConfusion (show Phase.completed = Phase.returned false r from hph')
      · intro r hph'
        exact Phase.noConfusion (show Phase.completed = Phase.returned true r from hph')
  | coordReturn h =>
      have hr := h8 h
      obtain ⟨hres, hm, ho, hw⟩ := h7 hr
      refine ⟨h1, h2, h3, h4, h5, h6, h7, ?_, ?_, ?_, h11⟩
      · intro hph'
        exact Phase.noConfusion
          (show Phase.returned false s.bridge.result = Phase.completed from hph')
      · intro r hph'
        have hph'' : Phase.returned false s.bridge.result = Phase.returned false r := hph'
        obtain ⟨-, hv⟩ := Phase.returned.inj hph''
        refine ⟨?_, hr⟩
        rw [← hv]
        exact hres
      · intro r hph'
        have hph'' : Phase.returned false s.bridge.result = Phase.returned true r := hph'
        exact Bool.noConfusion (Phase.returned.inj hph'').1
  | teardown h =>
      refine ⟨h1, h2, h3, h4, h5, h6, h7, h8, h9, h10, ?_⟩
      intro _
      rfl
  | observeTeardown hph hterm =>
      refine ⟨h1, h2, h3, h4, h5, h6, h7, ?_, ?_, ?_, ?_⟩
      · exact fun h => Phase.noConfusion h
      · exact fun r h => Phase.noConfusion h (fun h1 _ => Bool.noConfusion h1)
      · exact fun r h => (Phase.noConfusion h (fun _ h2 => h2)).symm
      · exact fun _ => hterm

theorem inv_reachable {client : Option (String → Bool)} {name : String} {s : Sys}
    (h : Reachable client name s) : SysInv client name s := by
  induction h with
  | init => exact inv_init client name
  | step _ hstep ih => exact inv_step ih hstep

theorem reach_allowed : Reachable grantAll "inbox" runAllowedFinal := by
  have t0 : Reachable grantAll "inbox" bridgeConstruct := Reachable.init
  have t1 := Reachable.step t0 (Step.evalMain bridgeConstruct rfl)
  have t2 := Reachable.step t1 (Step.signalMain _ true rfl)
  have t3 := Reachable.step t2 (Step.runDidComplete _ true rfl rfl rfl)
  have t4 := Reachable.step t3 (Step.coordReturn _ rfl)
  exact t4

theorem reach_denied : Reachable none "inbox" runDeniedFinal := by
  have t0 : Reachable none "inbox" bridgeConstruct := Reachable.init
  have t1 := Reachable.step t0 (Step.evalMain bridgeConstruct rfl)
  have t2 := Reachable.step t1 (Step.signalMain _ false rfl)
  have t3 := Reachable.step t2 (Step.runDidComplete _ false rfl rfl rfl)
  have t4 := Reachable.step t3 (Step.coordReturn _ rfl)
  exact t4

theorem reach_cancelled : Reachable grantAll "inbox" cancelledState := by
  have t0 : Reachable grantAll "inbox" bridgeConstruct := Reachable.init
  have t1 := Reachable.step t0 (Step.teardown bridgeConstruct rfl)
  have t2 := Reachable.step t1 (Step.observeTeardown _ rfl rfl)
  exact t2

theorem nthUniqueId_eq (l : WorkerRunLoop) (k : Nat) :
    nthUniqueId l k = l.uniqueId + k + 1 := by
  induction k generalizing l with
  | zero => rfl
  | succ k ih =>
      show nthUniqueId l.createUniqueId.2 k = _
      rw [ih]
      show l.uniqueId + 1 + k + 1 = l.uniqueId + (k + 1) + 1
      omega

theorem digitVal_digitChar (d : Nat) (h : d < 10) :
    digitVal (Nat.digitChar d) = d := by
  interval_cases d <;> decide

theorem decValRev_natDigitsRev (n : Nat) : decValRev (natDigitsRev n) = n := by
  induction n using Nat.strong_induction_on with
  | _ n ih =>
      unfold natDigitsRev
      split
      case isTrue h =>
        simp [decValRev, digitVal_digitChar n h]
      case isFalse h =>
        have h10 : n % 10 < 10 := Nat.mod_lt _ (by omega)
        have hdiv : n / 10 < n := Nat.div_lt_self (by omega) (by omega)
        simp [decValRev, digitVal_digitChar _ h10, ih _ hdiv]
        omega

theorem natDigitsRev_inj {a b : Nat} (h : natDigitsRev a = natDigitsRev b) :
    a = b := by
  have ha := decValRev_natDigitsRev a
  rw [h, decValRev_natDigitsRev b] at ha
  exact ha.symm

theorem numberString_inj {a b : Nat} (h : numberString a = numberString b) :
    a = b := by
  have hd : (natDigitsRev a).reverse = (natDigitsRev b).reverse :=
    congrArg String.data h
  exact natDigitsRev_inj (List.reverse_injective hd)

theorem string_append_left_cancel {p s t : String} (h : p ++ s = p ++ t) :
    s = t := by
  have hd : p.data ++ s.data = p.data ++ t.data := congrArg String.data h
  have h2 : s.data = t.data := List.append_cancel_left hd
  exact congrArg String.mk (by simpa using h2)

/-- C1: for every execution of `allowIDBFromWorkerThread` that returns, the
returned boolean equals the authority's verdict when the return was normal,
and is `false` when the return came from the `MessageQueueTerminated` branch;
hence it is `true` only when the capability was present and its predicate
granted the subject name before teardown, and it is `false` on denial, on an
absent capability, and on abnormal loop termination. -/
theorem check_return_matches_authority
    (client : Option (String → Bool)) (name : String) (s : Sys) (ab r : Bool)
    (hreach : Reachable client name s) (hret : s.phase = Phase.returned ab r) :
    (ab = false → r = clientEval client name) ∧
    (ab = true → r = false) ∧
    (r = true → ab = false ∧ ∃ f, client = some f ∧ f name = true) ∧
    (client = none → r = false) ∧
    (∀ f, client = some f → f name = false → r = false) := by
  obtain ⟨-, -, -, -, -, -, -, -, h9, h10, -⟩ := inv_reachable hreach
  cases ab with
  | false =>
      obtain ⟨hv, -⟩ := h9 r hret
      refine ⟨fun _ => hv, fun hab => Bool.noConfusion hab, ?_, ?_, ?_⟩
      · intro hr
        rw [hr] at hv
        refine ⟨rfl, ?_⟩
        cases hcl : client with
        | none => rw [hcl] at hv; exact Bool.noConfusion hv
        | some f =>
            rw [hcl] at hv
            exact ⟨f, rfl, hv.symm⟩
      · intro hcl
        rw [hcl] at hv
        exact hv
      · intro f hcl hf
        rw [hcl] at hv
        rw [hv]
        exact hf
  | true =>
      have hv := h10 r hret
      refine ⟨fun hab => Bool.noConfusion hab, fun _ => hv, ?_, fun _ => hv,
        fun _ _ _ => hv⟩
      intro hr
      rw [hv] at hr
      exact Bool.noConfusion hr

theorem check_return_matches_authority_witness :
    (false = false → true = clientEval grantAll "inbox") ∧
    (false = true → true = false) ∧
    (true = true → false = false ∧ ∃ f, grantAll = some f ∧ f "inbox" = true) ∧
    (grantAll = none → true = false) ∧
    (∀ f, grantAll = some f → f "inbox" = false → true = false) :=
  check_return_matches_authority grantAll "inbox" runAllowedFinal false true
    reach_allowed rfl

/-- C2: when `runInMode` returns `MessageQueueTerminated`, the coordinator's
step is exactly `onTerminated`: it cancels the bridge (the back-reference is
cleared) and returns `false` through the abnormal branch; the returned value
is produced without reading the result slot — the branch commutes with any
overwrite of `m_result`. -/
theorem terminated_queue_cancels_and_returns_false
    (client : Option (String → Bool)) (name : String) (s s' : Sys)
    (hstep : Step client name s Label.observeTeardown s') :
    s' = onTerminated s ∧
    s'.phase = Phase.returned true false ∧
    s'.bridge.m_webWorkerBase = false ∧
    (∀ b, onTerminated { s with bridge := { s.bridge with m_result := b } } =
      { onTerminated s with
          bridge := { (onTerminated s).bridge with m_result := b } }) := by
  cases hstep
  exact ⟨rfl, rfl, rfl, fun _ => rfl⟩

theorem terminated_queue_cancels_and_returns_false_witness :
    onTerminated terminatedWaiting = onTerminated terminatedWaiting ∧
    (onTerminated terminatedWaiting).phase = Phase.returned true false ∧
    (onTerminated terminatedWaiting).bridge.m_webWorkerBase = false ∧
    (∀ b, onTerminated
        { terminatedWaiting with
            bridge := { terminatedWaiting.bridge with m_result := b } } =
      { onTerminated terminatedWaiting with
          bridge :=
            { (onTerminated terminatedWaiting).bridge with m_result := b } }) :=
  terminated_queue_cancels_and_returns_false grantAll "inbox" terminatedWaiting
    (onTerminated terminatedWaiting)
    (Step.observeTeardown terminatedWaiting rfl rfl)

/-- C3 counterexample: with the authority capability absent (`client = none`)
the claim's "no dispatch, no blocking" fails — already the first
configuration of the check (the bridge constructor) has dispatched one
`allowIndexedDBTask` to the authority thread, and the concrete execution that
returns `false` normally does so only after that task ran and its denial
completion was delivered back (one result write). -/
theorem absent_authority_still_dispatches_cex :
    Reachable none "inbox" runDeniedFinal ∧
    runDeniedFinal.phase = Phase.returned false false ∧
    bridgeConstruct.mainDispatched = 1 ∧
    runDeniedFinal.mainDispatched = 1 ∧
    runDeniedFinal.mainTaskPending = false ∧
    runDeniedFinal.resultWrites = 1 :=
  ⟨reach_denied, rfl, rfl, rfl, rfl, rfl⟩

/-- C3 (amended): with the authority capability absent every return of the
check yields `false`; however the evaluation task is still dispatched to the
authority thread (the dispatch count is 1 in every reachable configuration,
including the initial one), and a normal — non-teardown — return occurs only
after the full round trip: the task has run and the denial completion was
delivered into the restricted-mode wait. -/
theorem absent_authority_denied_after_roundtrip
    (name : String) (s : Sys) (ab r : Bool)
    (hreach : Reachable none name s) (hret : s.phase = Phase.returned ab r) :
    r = false ∧
    s.mainDispatched = 1 ∧
    bridgeConstruct.mainDispatched = 1 ∧
    (ab = false → s.resultWrites = 1 ∧ s.mainTaskPending = false ∧
      s.outcome = none ∧ s.workerTask = none) := by
  obtain ⟨h1, -, -, -, -, -, h7, -, h9, h10, -⟩ := inv_reachable hreach
  cases ab with
  | false =>
      obtain ⟨hv, hw⟩ := h9 r hret
      obtain ⟨-, hm, ho, hwt⟩ := h7 hw
      exact ⟨hv, h1, rfl, fun _ => ⟨hw, hm, ho, hwt⟩⟩
  | true =>
      exact ⟨h10 r hret, h1, rfl, fun hab => Bool.noConfusion hab⟩

theorem absent_authority_denied_after_roundtrip_witness :
    false = false ∧
    runDeniedFinal.mainDispatched = 1 ∧
    bridgeConstruct.mainDispatched = 1 ∧
    (false = false → runDeniedFinal.resultWrites = 1 ∧
      runDeniedFinal.mainTaskPending = false ∧
      runDeniedFinal.outcome = none ∧ runDeniedFinal.workerTask = none) :=
  absent_authority_denied_after_roundtrip "inbox" runDeniedFinal false false
    reach_denied rfl

/-- C4 counterexample: the claim that every access to the result slot and the
back-reference happens under the lock — and that the completion task locks
and checks the back-reference before storing — is false of the source:
`didComplete` writes `m_result` without the lock, `result()` reads it without
the lock, and `didComplete` stores the outcome even into a bridge whose
back-reference is already cleared. -/
theorem result_slot_access_unlocked_cex :
    (didCompleteAccesses.all fun a => a.underLock) = false ∧
    (resultAccesses.all fun a => a.underLock) = false ∧
    (allBridgeAccesses.all fun a => a.underLock) = false ∧
    (Bridge.didComplete ⟨false, false⟩ true).m_result = true := by
  decide

/-- C4 (amended): the back-reference is accessed only while the lock is held
(in `cancel` and `signalCompleted`); the result slot is accessed — read by
`result()`, written by `didComplete` — without the lock, and `didComplete`
stores unconditionally: the back-reference check gating delivery is performed
by `signalCompleted`, under the lock, before the completion task is posted. -/
theorem lock_discipline_actual :
    ((allBridgeAccesses.filter fun a => a.field == BridgeField.backref).all
      fun a => a.underLock) = true ∧
    ((allBridgeAccesses.filter fun a => a.field == BridgeField.resultSlot).all
      fun a => !a.underLock) = true ∧
    (∀ br : Bridge, ∀ v : Bool, (br.didComplete v).m_result = v) ∧
    (∀ br : Bridge, ∀ v : Bool,
      (br.signalCompleted v).2 =
        if br.m_webWorkerBase then some v else none) :=
  ⟨by decide, by decide, fun _ _ => rfl,
    fun br v => by cases hbr : br.m_webWorkerBase <;>
      simp [Bridge.signalCompleted, hbr]⟩

/-- C5: in every interleaving, once cancellation has observably completed
(the back-reference is cleared), no step delivers a completion to the
requester: every enabled step leaves the worker-side task queue, the result
slot and the cleared back-reference unchanged — in particular a later
`signalCompleted` posts no task and issues no wake, and the `didComplete`
delivery step is no longer enabled at all. -/
theorem cancelled_bridge_completion_dropped
    (client : Option (String → Bool)) (name : String)
    (s : Sys) (l : Label) (s' : Sys)
    (hreach : Reachable client name s)
    (hcancelled : s.bridge.m_webWorkerBase = false)
    (hstep : Step client name s l s') :
    s'.workerTask = s.workerTask ∧
    s'.bridge.m_result = s.bridge.m_result ∧
    s'.bridge.m_webWorkerBase = false := by
  obtain ⟨-, -, -, -, -, -, -, -, -, -, h11⟩ := inv_reachable hreach
  cases hstep with
  | evalMain h => exact ⟨rfl, rfl, hcancelled⟩
  | signalMain b h =>
      rw [signalStep_eq, hcancelled, if_neg Bool.false_ne_true]
      exact ⟨rfl, rfl, hcancelled⟩
  | runDidComplete b hlive hw hph =>
      rw [h11 hcancelled] at hlive
      exact Bool.noConfusion hlive
  | coordReturn h => exact ⟨rfl, rfl, hcancelled⟩
  | teardown h => exact ⟨rfl, rfl, hcancelled⟩
  | observeTeardown hph hterm => exact ⟨rfl, rfl, rfl⟩

theorem cancelled_bridge_completion_dropped_witness :
    afterCancelEval.workerTask = cancelledState.workerTask ∧
    afterCancelEval.bridge.m_result = cancelledState.bridge.m_result ∧
    afterCancelEval.bridge.m_webWorkerBase = false :=
  cancelled_bridge_completion_dropped grantAll "inbox" cancelledState
    Label.evalMain afterCancelEval reach_cancelled rfl
    (Step.evalMain cancelledState rfl)

/-- C6: the result slot starts out `false` at construction, is written at
most once over the bridge's lifetime, and only the `didComplete` step writes
it or advances the write counter; every other step leaves both unchanged. -/
theorem result_written_at_most_once
    (client : Option (String → Bool)) (name : String) (s : Sys)
    (hreach : Reachable client name s) :
    bridgeConstruct.bridge.m_result = false ∧
    bridgeConstruct.resultWrites = 0 ∧
    s.resultWrites ≤ 1 ∧
    (s.resultWrites = 0 → s.bridge.m_result = false) ∧
    (∀ l s', Step client name s l s' →
      (l = Label.runDidComplete → s'.resultWrites = s.resultWrites + 1) ∧
      (l ≠ Label.runDidComplete → s'.resultWrites = s.resultWrites ∧
        s'.bridge.m_result = s.bridge.m_result)) := by
  obtain ⟨-, -, -, -, h5, h6, -, -, -, -, -⟩ := inv_reachable hreach
  refine ⟨rfl, rfl, h5, h6, ?_⟩
  intro l s' hstep
  cases hstep with
  | evalMain h =>
      exact ⟨fun hl => Label.noConfusion hl, fun _ => ⟨rfl, rfl⟩⟩
  | signalMain b h =>
      refine ⟨fun hl => Label.noConfusion hl, fun _ => ⟨rfl, ?_⟩⟩
      show ((s.bridge.signalCompleted b).1).m_result = s.bridge.m_result
      rw [Bridge.signalCompleted_fst]
  | runDidComplete b hlive hw hph =>
      exact ⟨fun _ => rfl, fun hl => absurd rfl hl⟩
  | coordReturn h =>
      exact ⟨fun hl => Label.noConfusion hl, fun _ => ⟨rfl, rfl⟩⟩
  | teardown h =>
      exact ⟨fun hl => Label.noConfusion hl, fun _ => ⟨rfl, rfl⟩⟩
  | observeTeardown hph hterm =>
      exact ⟨fun hl => Label.noConfusion hl, fun _ => ⟨rfl, rfl⟩⟩

theorem result_written_at_most_once_witness :
    bridgeConstruct.bridge.m_result = false ∧
    bridgeConstruct.resultWrites = 0 ∧
    bridgeConstruct.resultWrites ≤ 1 ∧
    (bridgeConstruct.resultWrites = 0 → bridgeConstruct.bridge.m_result = false) ∧
    (∀ l s', Step grantAll "inbox" bridgeConstruct l s' →
      (l = Label.runDidComplete →
        s'.resultWrites = bridgeConstruct.resultWrites + 1) ∧
      (l ≠ Label.runDidComplete →
        s'.resultWrites = bridgeConstruct.resultWrites ∧
        s'.bridge.m_result = bridgeConstruct.bridge.m_result)) :=
  result_written_at_most_once grantAll "inbox" bridgeConstruct Reachable.init

/-- C7: two distinct `check` calls served by the same requester loop — here
the (j+1)-st and the (j+k+2)-nd, covering every ordered pair, with the same
or different subject names — obtain distinct wait-channel ids (the fixed base
tag with distinct fresh counter values appended), so a completion task tagged
for the one is not deliverable inside the other's restricted-mode wait. -/
theorem wait_channel_ids_distinct :
    ∀ (l : WorkerRunLoop) (j k : Nat),
      (modeString (nthUniqueId l j) ==
        modeString (nthUniqueId l (j + k + 1))) = false ∧
      deliveredInMode (modeString (nthUniqueId l j))
        (modeString (nthUniqueId l (j + k + 1))) = false := by
  intro l j k
  have hne : modeString (nthUniqueId l j) ≠
      modeString (nthUniqueId l (j + k + 1)) := by
    intro h
    have h2 : numberString (nthUniqueId l j) =
        numberString (nthUniqueId l (j + k + 1)) :=
      string_append_left_cancel h
    have h3 := numberString_inj h2
    rw [nthUniqueId_eq, nthUniqueId_eq] at h3
    omega
  exact ⟨beq_eq_false_iff_ne.mpr hne, beq_eq_false_iff_ne.mpr hne⟩

/-- C8: `cancel` is idempotent — a second `cancel` is the identity on the
bridge state: the back-reference is cleared and nothing else changes. -/
theorem cancel_idempotent :
    ∀ br : Bridge,
      br.cancel.cancel = br.cancel ∧
      br.cancel.m_webWorkerBase = false ∧
      br.cancel.m_result = br.m_result :=
  fun _ => ⟨rfl, rfl, rfl⟩

/-- C9: in the frame-based entry points an absent permission client skips the
check and the operation proceeds to the underlying factory as if allowed;
on the worker path, by contrast, an absent authority capability evaluates to
a denial. -/
theorem null_permission_client_skips_check :
    ∀ name : String,
      openFromFrame none name = FrameEffect.factoryOpen name ∧
      deleteDatabase none name = FrameEffect.factoryDeleteDatabase name ∧
      getDatabaseNames none = FrameEffect.factoryGetDatabaseNames ∧
      clientEval none name = false :=
  fun _ => ⟨rfl, rfl, rfl, rfl⟩

/-- C10: `openFromWorker` branches exactly on the boolean returned by
`allowIDBFromWorkerThread`: `false` produces the `onError` callback with
exactly the denial message and no factory call, `true` produces the factory
`open` call and no error. -/
theorem openFromWorker_outcome_dictates_effect :
    ∀ name : String,
      openFromWorker false name = WorkerOpenEffect.onError denialMessage ∧
      openFromWorker true name = WorkerOpenEffect.factoryOpen name ∧
      denialMessage = "The user denied permission to access the database." :=
  fun _ => ⟨rfl, rfl, rfl⟩
